import Mathlib

/-!
Verification development for the rustims raw-file writer pipeline
(`imspy/simulation/tdf.py` — class `TDFWriter`), the dataset iterator
(`imspy/timstof/data.py` — `TimsDataset.__next__`), and the acquisition
noise injector (`imspy/simulation/timsim/jobs/add_noise_from_real_data.py`).

The Python code is embedded shallowly:
 - machine floats that are only carried through (retention time, m/z,
   mobility values) are abstracted as `Int`/`Rat`; no claim performs float
   arithmetic on them;
 - the native extension calls (`mz_to_tof`, `inverse_mobility_to_scan`,
   `indexed_values_to_compressed_bytes`, `compress_frames`,
   `get_frame`, the noise samplers) are opaque function fields of the
   handle structures; a call that may raise a Python exception is a
   function returning `Option`;
 - a raised Python exception is modelled with `Except`/`Option`; for the
   writer, `Except.error s` carries the object state left behind by the
   exception (Python mutations before the raise remain visible);
 - the SQLite store written through `pandas.DataFrame.to_sql(...,
   if_exists='replace')` is an association list from table names to table
   values, with replace-or-append semantics.
-/

namespace RustIms

/-- Modelled from the spec (§3 FrameRecord): `TimsFrame` itself lives in
`imspy/timstof/frame.py`, which is not among the shown sources.  One
acquisition frame: scalar metadata plus parallel peak arrays
`scan/mobility/tof/mz/intensity`.  Float-valued arrays are abstracted as
`Int` since the writer only measures their lengths or hands them to the
opaque native compressor. -/
structure TimsFrame where
  frame_id : Nat
  ms_type : Int
  retention_time : Int
  scan : List Nat
  mobility : List Int
  tof : List Nat
  mz : List Int
  intensity : List Nat
  deriving DecidableEq, Repr

/-- One row of the `Frames` metadata table.  The nine fields written by
`TDFWriter.build_frame_meta_row` are explicit; `extra` stands for all the
remaining columns of the template dataset's `Frames` table, which the
writer copies through unchanged. -/
structure MetaRow where
  Id : Nat
  Time : Int
  ScanMode : Int
  MsMsType : Int
  TimsId : Nat
  MaxIntensity : Nat
  SummedIntensities : Nat
  NumScans : Nat
  NumPeaks : Nat
  extra : Int
  deriving DecidableEq, Repr

/-- The one-row `Segments` table; only `LastFrame` is ever modified
(`write_frame_meta_data`), `extra` stands for the remaining columns. -/
structure SegmentsRow where
  LastFrame : Nat
  extra : Int
  deriving DecidableEq, Repr

/-- A value stored under a table name in the `analysis.tdf` SQLite store:
the writer's own `Frames` and `Segments` tables are structured, every
table copied verbatim from the template dataset is an opaque payload. -/
inductive TableData where
  | frames : List MetaRow → TableData
  | segments : SegmentsRow → TableData
  | raw : Int → TableData
  deriving DecidableEq, Repr

/-- The SQLite store behind `self.conn`. -/
structure DB where
  tables : List (String × TableData)
  deriving DecidableEq, Repr

/-- Replace-or-add of a named table in an association list (the list never
holds two tables of the same name). -/
def setTableList (name : String) (t : TableData) :
    List (String × TableData) → List (String × TableData)
  | [] => [(name, t)]
  | (m, u) :: rest =>
    if m = name then (name, t) :: rest else (m, u) :: setTableList name t rest

/-- Models `pandas.DataFrame.to_sql(name, conn, if_exists='replace')`: replace the
table if one of that name exists, otherwise add it. -/
def DB.setTable (db : DB) (name : String) (t : TableData) : DB :=
  ⟨setTableList name t db.tables⟩

/-- Read a table back from the store. -/
def DB.getTable (db : DB) (name : String) : Option TableData :=
  (db.tables.find? (fun p => p.fst = name)).map Prod.snd

/-- The helper `TimsDataset` handle as consumed by `TDFWriter`: its cached
`Frames` metadata (template rows, `iloc`-addressable), `num_scans`, the
tables copied at `_setup_connections` time, and the opaque native
compression entry points.  `compress` models
`TDFWriter.compress_frame` with its default `use_frame_id_one=False`
(the `mz_to_tof`/`inverse_mobility_to_scan`/
`indexed_values_to_compressed_bytes` chain); `compress_frames` models the
batched native `helper_handle.compress_frames`.  A `none` result models
the native call raising. -/
structure HelperHandle where
  meta_data : List MetaRow
  num_scans : Nat
  mz_calibration : Int
  tims_calibration : Int
  global_meta_data_pandas : Int
  frame_msms_info : Int
  segments : SegmentsRow
  compress : TimsFrame → Option (List Nat)
  compress_frames : List TimsFrame → Option (List (List Nat))

/-- Scalar `DataFrame.iloc[i]` addressing: a non-negative index counts from
the front, a negative index from the back, anything out of range raises
(`none`). -/
def pandasIloc (rows : List MetaRow) (i : Int) : Option MetaRow :=
  let j : Int := if 0 ≤ i then i else (rows.length : Int) + i
  if 0 ≤ j then rows.get? j.toNat else none

/-- The field assignments of `build_frame_meta_row` applied to the copied
template row `r`: Id, Time, ScanMode, MsMsType, TimsId, MaxIntensity,
SummedIntensities, NumScans, NumPeaks are overwritten, everything else is
kept. -/
def overwriteRow (h : HelperHandle) (frame : TimsFrame) (scan_mode : Int)
    (frame_start_pos : Nat) (r : MetaRow) : MetaRow :=
  { r with
    Id := frame.frame_id
    Time := frame.retention_time
    ScanMode := scan_mode
    MsMsType := frame.ms_type
    TimsId := frame_start_pos
    MaxIntensity := if 0 < frame.intensity.length then frame.intensity.foldl Nat.max 0 else 0
    SummedIntensities := if 0 < frame.intensity.length then frame.intensity.sum else 0
    NumScans := h.num_scans
    NumPeaks := frame.mz.length }

/-- Embeds `TDFWriter.build_frame_meta_row`: copy `meta_data.iloc[0]`, then (unless
`use_frame_id_one`) re-copy `meta_data.iloc[frame.frame_id - 1]`, then
overwrite the per-frame fields.  `none` models the `iloc` lookup raising. -/
def build_frame_meta_row (h : HelperHandle) (frame : TimsFrame) (scan_mode : Int)
    (frame_start_pos : Nat) (use_frame_id_one : Bool) : Option MetaRow :=
  (pandasIloc h.meta_data 0).bind fun r0 =>
    (if use_frame_id_one then some r0
     else pandasIloc h.meta_data ((frame.frame_id : Int) - 1)).map
      (overwriteRow h frame scan_mode frame_start_pos)

/-- The mutable state of a `TDFWriter`: the byte cursor `position`, the
contents of `analysis.tdf_bin`, the accumulated in-memory metadata rows,
and the SQLite store. -/
structure WriterState where
  position : Nat
  binFile : List Nat
  frame_meta_data : List MetaRow
  db : DB
  deriving DecidableEq, Repr

/-- Embeds `TDFWriter.__init__` and `_setup_connections`: copy the four template
tables into the store, write `offset_bytes` zero bytes as the header and
set the cursor to the file position after the header. -/
def initWriter (h : HelperHandle) (offset_bytes : Nat) : WriterState :=
  { position := offset_bytes
    binFile := List.replicate offset_bytes 0
    frame_meta_data := []
    db := ((((DB.mk []).setTable "MzCalibration" (.raw h.mz_calibration)).setTable
        "TimsCalibration" (.raw h.tims_calibration)).setTable
        "GlobalMetadata" (.raw h.global_meta_data_pandas)).setTable
        "FrameMsmsInfo" (.raw h.frame_msms_info) }

/-- Embeds `TDFWriter.write_frame`: append the metadata row built at the current
cursor, then compress, then append the compressed bytes and move the
cursor to the file position (`tell`) after the write.  An `error` result
models an exception and carries the state the writer object is left in:
a failed `iloc` lookup leaves the state untouched, a failed compression
leaves the already-appended metadata row behind. -/
def write_frame (h : HelperHandle) (s : WriterState) (frame : TimsFrame)
    (scan_mode : Int) : Except WriterState WriterState :=
  match build_frame_meta_row h frame scan_mode s.position false with
  | none => .error s
  | some row =>
    let s1 : WriterState := { s with frame_meta_data := s.frame_meta_data ++ [row] }
    match h.compress frame with
    | none => .error s1
    | some data =>
      .ok { s1 with binFile := s1.binFile ++ data, position := (s1.binFile ++ data).length }

/-- The `for frame, data in zip(frames, compressed_data)` loop body of
`TDFWriter.write_frames`: per pair, append the metadata row built at the
current cursor, write the payload, advance the cursor to the new file
length. -/
def write_frames_loop (h : HelperHandle) (scan_mode : Int) :
    WriterState → List (TimsFrame × List Nat) → Except WriterState WriterState
  | s, [] => .ok s
  | s, (frame, data) :: rest =>
    match build_frame_meta_row h frame scan_mode s.position false with
    | none => .error s
    | some row =>
      write_frames_loop h scan_mode
        { s with
          frame_meta_data := s.frame_meta_data ++ [row]
          binFile := s.binFile ++ data
          position := (s.binFile ++ data).length } rest

/-- Embeds `TDFWriter.write_frames`: batch-compress all frames through the native
handle, then run the zip loop.  A failing batch compression raises before
any state is touched. -/
def write_frames (h : HelperHandle) (s : WriterState) (frames : List TimsFrame)
    (scan_mode : Int) : Except WriterState WriterState :=
  match h.compress_frames frames with
  | none => .error s
  | some compressed_data => write_frames_loop h scan_mode s (frames.zip compressed_data)

/-- Calling `write_frame` once per frame, in order, stopping at the first
exception (the reference behaviour `write_frames` is claimed to refine). -/
def writeFramesIter (h : HelperHandle) (scan_mode : Int) :
    WriterState → List TimsFrame → Except WriterState WriterState
  | s, [] => .ok s
  | s, frame :: rest =>
    match write_frame h s frame scan_mode with
    | .error e => .error e
    | .ok s1 => writeFramesIter h scan_mode s1 rest

/-- Computes `meta_data.Id.max()` over the accumulated rows (pandas max of the `Id`
column; only evaluated on a non-empty table). -/
def framesIdMax (rows : List MetaRow) : Nat :=
  (rows.map (·.Id)).foldl Nat.max 0

/-- Models `segments['LastFrame'] = n`: the template `Segments` row with its
`LastFrame` column overwritten. -/
def segWithLast (g : SegmentsRow) (n : Nat) : SegmentsRow :=
  { g with LastFrame := n }

/-- Embeds `TDFWriter.write_frame_meta_data` (the finalize step): rebuild the
frame table from the accumulated rows, fetch a fresh copy of the template
`Segments` row, set its `LastFrame` to `max(Id)`, and store both tables,
replacing existing ones.  On an empty accumulator, `meta_data.Id` raises
(`pd.DataFrame([])` has no `Id` column), modelled as `none`. -/
def write_frame_meta_data (h : HelperHandle) (s : WriterState) : Option WriterState :=
  if s.frame_meta_data.isEmpty then none
  else
    some { s with
      db := (s.db.setTable "Frames" (.frames s.frame_meta_data)).setTable
        "Segments" (.segments (segWithLast h.segments (framesIdMax s.frame_meta_data))) }

/-- One writer call in a session: a single-frame write or a batched write. -/
inductive WriteOp where
  | single : TimsFrame → WriteOp
  | batch : List TimsFrame → WriteOp

/-- Run a sequence of writer calls against a session, stopping at the first
exception. -/
def runWrites (h : HelperHandle) (scan_mode : Int) :
    WriterState → List WriteOp → Except WriterState WriterState
  | s, [] => .ok s
  | s, .single frame :: ops =>
    match write_frame h s frame scan_mode with
    | .error e => .error e
    | .ok s1 => runWrites h scan_mode s1 ops
  | s, .batch frames :: ops =>
    match write_frames h s frames scan_mode with
    | .error e => .error e
    | .ok s1 => runWrites h scan_mode s1 ops

/-- The compressed payloads one writer call appends to `analysis.tdf_bin`,
in order: one payload for a single write, the zip-truncated batch result
for a batched write (`none` when the native compressor raises). -/
def opPayloads (h : HelperHandle) : WriteOp → Option (List (List Nat))
  | .single frame => (h.compress frame).map fun d => [d]
  | .batch frames =>
    (h.compress_frames frames).map fun ds => (frames.zip ds).map Prod.snd

/-- The byte offsets at which successive payloads of the given lengths
start, when appension begins at `offset`: the prefix sums. -/
def timsIds (offset : Nat) : List Nat → List Nat
  | [] => []
  | l :: ls => offset :: timsIds (offset + l) ls

/-- The read-side dataset handle as used by `TimsDataset.__iter__` /
`__next__`: the native frame count, the opaque native `get_frame`
(`none` models the native call returning a null pointer), and the
mutable iteration cursor `current_index` (initialised to 1 in
`TimsDataset.__init__`). -/
structure DatasetIter where
  frame_count : Nat
  getFrame : Nat → Option TimsFrame
  current_index : Nat

/-- What one `next()` call on a `TimsDataset` produces: a frame, a
`ValueError` (null frame pointer at a valid index), or `StopIteration`. -/
inductive IterResult where
  | frame : TimsFrame → IterResult
  | valueError : IterResult
  | stopIteration : IterResult
  deriving DecidableEq, Repr

/-- The frame id carried by an iteration result, if it is a frame. -/
def IterResult.frameId : IterResult → Option Nat
  | .frame f => some f.frame_id
  | _ => none

/-- Embeds `TimsDataset.__next__`: while the cursor is within `frame_count`,
fetch the frame at the cursor and advance the cursor (the cursor advances
even when the fetch yields a null pointer and a `ValueError` is raised);
past the end, reset the cursor to 1 and raise `StopIteration`. -/
def dsNext (d : DatasetIter) : IterResult × DatasetIter :=
  if d.current_index ≤ d.frame_count then
    let r := d.getFrame d.current_index
    let d1 : DatasetIter := { d with current_index := d.current_index + 1 }
    match r with
    | some f => (.frame f, d1)
    | none => (.valueError, d1)
  else
    (.stopIteration, { d with current_index := 1 })

/-- Runs `n` successive `next()` calls, collecting the results in order. -/
def dsRun : DatasetIter → Nat → List IterResult × DatasetIter
  | d, 0 => ([], d)
  | d, n + 1 =>
    let (r, d1) := dsNext d
    let (rs, d2) := dsRun d1 n
    (r :: rs, d2)

/-- The collaborators of `add_real_data_noise_to_frames`: the
`frame → window_group` table of the acquisition builder
(`frames_to_window_groups`, as the zipped column pair), the two opaque
native noise samplers of the helper handle, and the opaque native
peak-wise frame addition `TimsFrame.__add__`. -/
structure AcquisitionSource where
  frames_to_window_groups : List (Nat × Nat)
  sample_fragment_signal : Nat → Nat → Rat → Rat → TimsFrame
  sample_precursor_signal : Nat → Rat → Rat → TimsFrame
  addFrames : TimsFrame → TimsFrame → TimsFrame

/-- Models `dict(zip(keys, values))` lookup: the last binding of a key wins. -/
def pyDict (ps : List (Nat × Nat)) (k : Nat) : Option Nat :=
  ps.foldl (fun acc p => if p.fst = k then some p.snd else acc) none

/-- Embeds `add_real_data_noise_to_frames`: build the window-group dict once, then
for each frame in order append `frame + noise` to the result list, where
the noise is a fragment sample keyed by the frame's window group if the
frame id is a dict key, and a precursor sample otherwise. -/
def add_real_data_noise_to_frames (b : AcquisitionSource) (frames : List TimsFrame)
    (intensity_max : Rat) (sample_fraction : Rat) (num_frames : Nat) : List TimsFrame :=
  frames.foldl
    (fun r_list frame =>
      match pyDict b.frames_to_window_groups frame.frame_id with
      | some window_group =>
        r_list ++ [b.addFrames frame
          (b.sample_fragment_signal num_frames window_group intensity_max sample_fraction)]
      | none =>
        r_list ++ [b.addFrames frame
          (b.sample_precursor_signal num_frames intensity_max sample_fraction)])
    []

/-- The per-frame noise step: classification (fragment vs precursor) reads
only the dict and the frame's own id. -/
def classifyAndInject (b : AcquisitionSource) (intensity_max : Rat)
    (sample_fraction : Rat) (num_frames : Nat) (frame : TimsFrame) : TimsFrame :=
  match pyDict b.frames_to_window_groups frame.frame_id with
  | some window_group =>
    b.addFrames frame
      (b.sample_fragment_signal num_frames window_group intensity_max sample_fraction)
  | none =>
    b.addFrames frame
      (b.sample_precursor_signal num_frames intensity_max sample_fraction)

/-! Concrete instances used by witness and counterexample theorems. -/

/-- First template row of a tiny concrete calibration `Frames` table. -/
def tRow0 : MetaRow :=
  { Id := 1, Time := 0, ScanMode := 8, MsMsType := 0, TimsId := 0, MaxIntensity := 0,
    SummedIntensities := 0, NumScans := 700, NumPeaks := 0, extra := 11 }

/-- Second template row of the tiny concrete calibration `Frames` table. -/
def tRow1 : MetaRow :=
  { Id := 2, Time := 0, ScanMode := 8, MsMsType := 0, TimsId := 0, MaxIntensity := 0,
    SummedIntensities := 0, NumScans := 700, NumPeaks := 0, extra := 22 }

/-- A concrete template `Segments` row. -/
def wSeg : SegmentsRow := { LastFrame := 0, extra := 5 }

/-- A concrete helper handle whose batched compressor is exactly the
frame-wise single compressor (it compresses a frame to `frame_id` nines). -/
def wHandle : HelperHandle where
  meta_data := [tRow0, tRow1]
  num_scans := 700
  mz_calibration := 1
  tims_calibration := 2
  global_meta_data_pandas := 3
  frame_msms_info := 4
  segments := wSeg
  compress := fun f => some (List.replicate f.frame_id 9)
  compress_frames := fun fs => fs.mapM fun f => some (List.replicate f.frame_id 9)

/-- A concrete helper handle whose native compressor always raises. -/
def cexHandle : HelperHandle :=
  { wHandle with compress := fun _ => none, compress_frames := fun _ => none }

/-- A concrete one-peak frame with id 1. -/
def wFrame1 : TimsFrame :=
  { frame_id := 1, ms_type := 0, retention_time := 10,
    scan := [3], mobility := [5], tof := [400], mz := [400], intensity := [50] }

/-- A concrete one-peak fragment frame with id 2. -/
def wFrame2 : TimsFrame :=
  { frame_id := 2, ms_type := 8, retention_time := 20,
    scan := [4], mobility := [6], tof := [500], mz := [500], intensity := [60] }

/-- A concrete frame with id 1 and zero peaks. -/
def wEmptyFrame : TimsFrame :=
  { frame_id := 1, ms_type := 0, retention_time := 10,
    scan := [], mobility := [], tof := [], mz := [], intensity := [] }

/-- The writer state either carried by an exception or returned normally
(the Python object state after the call). -/
def exceptState : Except WriterState WriterState → WriterState
  | .ok s => s
  | .error s => s

/-- Whether a writer call returned without raising. -/
def isOkExc : Except WriterState WriterState → Bool
  | .ok _ => true
  | .error _ => false

/-- The session state after writing `wFrame1` into a fresh writer. -/
def afterFirstWrite : WriterState :=
  exceptState (write_frame wHandle (initWriter wHandle 64) wFrame1 8)

/-- The session state after finalizing that one-frame session. -/
def afterFinalize : WriterState :=
  (write_frame_meta_data wHandle afterFirstWrite).getD afterFirstWrite

/-- Payload collection across a whole sequence of writer calls (`none` as
soon as one call's native compression raises). -/
def opsPayloads (h : HelperHandle) : List WriteOp → Option (List (List (List Nat)))
  | [] => some []
  | op :: ops =>
    match opPayloads h op, opsPayloads h ops with
    | some ps, some pss => some (ps :: pss)
    | _, _ => none

/-- A concrete two-call session: one single write, then a one-frame batch. -/
def c2ops : List WriteOp := [.single wFrame1, .batch [wFrame2]]

/-- The final state of the concrete two-call session over a 2-byte header. -/
def c2FinalState : WriterState :=
  exceptState (runWrites wHandle 8 (initWriter wHandle 2) c2ops)

/-- A concrete native `get_frame`: returns an empty frame carrying the
requested id. -/
def wGetFrame (i : Nat) : Option TimsFrame :=
  some { frame_id := i, ms_type := 0, retention_time := 0,
         scan := [], mobility := [], tof := [], mz := [], intensity := [] }

/-- A concrete acquisition source for the noise injector: frames 2 and 4
are fragment frames (window groups 7 and 9); samplers and frame addition
are simple concrete functions. -/
def wAcq : AcquisitionSource where
  frames_to_window_groups := [(2, 7), (4, 9)]
  sample_fragment_signal := fun n wg _ _ =>
    { frame_id := 100 + wg, ms_type := 8, retention_time := 0,
      scan := [n], mobility := [], tof := [], mz := [], intensity := [] }
  sample_precursor_signal := fun n _ _ =>
    { frame_id := 200, ms_type := 0, retention_time := 0,
      scan := [n], mobility := [], tof := [], mz := [], intensity := [] }
  addFrames := fun a b =>
    { frame_id := a.frame_id, ms_type := a.ms_type, retention_time := a.retention_time,
      scan := a.scan ++ b.scan, mobility := a.mobility ++ b.mobility,
      tof := a.tof ++ b.tof, mz := a.mz ++ b.mz, intensity := a.intensity ++ b.intensity }

/-! Helper lemmas. -/

/-- Scalar `iloc` on an empty table always raises. -/
theorem pandasIloc_nil (i : Int) : pandasIloc [] i = none := by
  unfold pandasIloc
  split <;> simp

/-- A successfully built metadata row records the cursor passed in as its
`TimsId`. -/
theorem build_frame_meta_row_timsId (h : HelperHandle) (f : TimsFrame) (m : Int)
    (pos : Nat) (u : Bool) (row : MetaRow)
    (hb : build_frame_meta_row h f m pos u = some row) : row.TimsId = pos := by
  unfold build_frame_meta_row at hb
  cases h0 : pandasIloc h.meta_data 0 <;> rw [h0] at hb
  · exact absurd hb (by simp)
  · rcases Option.map_eq_some'.mp hb with ⟨r, _, hr⟩
    rw [← hr]
    rfl

/-! Claim C6. -/

/-- Claim C6: a frame with zero peaks (all five coordinate arrays empty)
yields a metadata row with `MaxIntensity = 0`, `SummedIntensities = 0`
and `NumPeaks = 0`. -/
theorem c6_empty_frame_zero_stats (h : HelperHandle) (f : TimsFrame) (m : Int)
    (pos : Nat) (r : MetaRow)
    (_hscan : f.scan = []) (_hmob : f.mobility = []) (_htof : f.tof = [])
    (hmz : f.mz = []) (hint : f.intensity = [])
    (hb : build_frame_meta_row h f m pos false = some r) :
    r.MaxIntensity = 0 ∧ r.SummedIntensities = 0 ∧ r.NumPeaks = 0 := by
  unfold build_frame_meta_row at hb
  cases h0 : pandasIloc h.meta_data 0 <;> rw [h0] at hb
  · exact absurd hb (by simp)
  · rcases Option.map_eq_some'.mp hb with ⟨t, _, ht⟩
    rw [← ht]
    simp [overwriteRow, hint, hmz]

/-- Witness for C6 at the concrete empty frame. -/
theorem c6_empty_frame_zero_stats_witness :
    (overwriteRow wHandle wEmptyFrame 8 64 tRow0).MaxIntensity = 0 ∧
    (overwriteRow wHandle wEmptyFrame 8 64 tRow0).SummedIntensities = 0 ∧
    (overwriteRow wHandle wEmptyFrame 8 64 tRow0).NumPeaks = 0 :=
  c6_empty_frame_zero_stats wHandle wEmptyFrame 8 64
    (overwriteRow wHandle wEmptyFrame 8 64 tRow0) rfl rfl rfl rfl rfl (by decide)

/-! Claim C7. -/

/-- Claim C7: `build_frame_meta_row` copies the template row at `iloc`
index `frame_id - 1` (1-based position `frame_id`) of the calibration
metadata — or row 0 when `use_frame_id_one` is set — and then overwrites
the per-frame fields. -/
theorem c7_template_row_selection (h : HelperHandle) (f : TimsFrame) (m : Int)
    (pos : Nat) :
    build_frame_meta_row h f m pos false =
      (pandasIloc h.meta_data ((f.frame_id : Int) - 1)).map (overwriteRow h f m pos) ∧
    build_frame_meta_row h f m pos true =
      (pandasIloc h.meta_data 0).map (overwriteRow h f m pos) := by
  constructor
  · unfold build_frame_meta_row
    cases h0 : pandasIloc h.meta_data 0
    · have hnil : h.meta_data = [] := by
        cases hm : h.meta_data with
        | nil => rfl
        | cons a l =>
          rw [hm] at h0
          unfold pandasIloc at h0
          simp at h0
      rw [hnil, pandasIloc_nil]
      rfl
    · simp
  · unfold build_frame_meta_row
    cases h0 : pandasIloc h.meta_data 0 <;> simp

/-! Claim C3 (corrected): `write_frame` appends the metadata row before it
compresses and before it appends the payload, so a compression failure
leaves the row behind. -/

/-- Counterexample to C3 as stated: with a compressor that raises, the
failed `write_frame` call still leaves a metadata row for the frame in the
accumulated rows. -/
theorem c3_counterexample :
    cexHandle.compress wFrame1 = none ∧
    isOkExc (write_frame cexHandle (initWriter cexHandle 64) wFrame1 8) = false ∧
    (exceptState (write_frame cexHandle (initWriter cexHandle 64) wFrame1 8)).frame_meta_data.map
      (·.Id) = [wFrame1.frame_id] := by
  refine ⟨rfl, ?_, ?_⟩ <;> decide

/-- Claim C3 (amended): when the template row lookup succeeds but the
native compression raises, `write_frame` raises with the metadata row for
the frame already appended to the accumulated rows — the write is not
atomic with respect to the metadata index. -/
theorem c3_row_recorded_before_append (h : HelperHandle) (s : WriterState)
    (f : TimsFrame) (m : Int) (row : MetaRow)
    (hb : build_frame_meta_row h f m s.position false = some row)
    (hc : h.compress f = none) :
    write_frame h s f m =
      .error { s with frame_meta_data := s.frame_meta_data ++ [row] } := by
  unfold write_frame
  rw [hb, hc]

/-- Witness for the amended C3 at the failing concrete compressor. -/
theorem c3_row_recorded_before_append_witness :
    write_frame cexHandle (initWriter cexHandle 64) wFrame1 8 =
      .error { initWriter cexHandle 64 with
        frame_meta_data := (initWriter cexHandle 64).frame_meta_data ++
          [overwriteRow cexHandle wFrame1 8 64 tRow0] } :=
  c3_row_recorded_before_append cexHandle (initWriter cexHandle 64) wFrame1 8
    (overwriteRow cexHandle wFrame1 8 64 tRow0) (by decide) rfl

/-! Claim C9. -/

/-- Folding an append-singleton body is mapping. -/
theorem foldl_append_singleton {α β : Type} (g : α → β) (l : List α) :
    ∀ acc : List β, l.foldl (fun r x => r ++ [g x]) acc = acc ++ l.map g := by
  induction l with
  | nil => intro acc; simp
  | cons x l ih => intro acc; simp [ih]

/-- Claim C9: the noise injector processes the frame list as an independent
per-frame map, and the per-frame step samples fragment noise keyed by the
frame's window group exactly when the frame id is a key of the
window-group dict, precursor noise otherwise — classification depends only
on the dict and the frame's own id, never on list position or previously
processed frames. -/
theorem c9_noise_classification (b : AcquisitionSource) (frames : List TimsFrame)
    (intensity_max sample_fraction : Rat) (num_frames : Nat) :
    add_real_data_noise_to_frames b frames intensity_max sample_fraction num_frames =
      frames.map (classifyAndInject b intensity_max sample_fraction num_frames) ∧
    (∀ f : TimsFrame, ∀ wg : Nat,
      pyDict b.frames_to_window_groups f.frame_id = some wg →
      classifyAndInject b intensity_max sample_fraction num_frames f =
        b.addFrames f
          (b.sample_fragment_signal num_frames wg intensity_max sample_fraction)) ∧
    (∀ f : TimsFrame,
      pyDict b.frames_to_window_groups f.frame_id = none →
      classifyAndInject b intensity_max sample_fraction num_frames f =
        b.addFrames f (b.sample_precursor_signal num_frames intensity_max sample_fraction)) := by
  refine ⟨?_, ?_, ?_⟩
  · unfold add_real_data_noise_to_frames
    have hbody :
        (fun (r_list : List TimsFrame) (frame : TimsFrame) =>
          match pyDict b.frames_to_window_groups frame.frame_id with
          | some window_group =>
            r_list ++ [b.addFrames frame
              (b.sample_fragment_signal num_frames window_group intensity_max sample_fraction)]
          | none =>
            r_list ++ [b.addFrames frame
              (b.sample_precursor_signal num_frames intensity_max sample_fraction)]) =
        (fun (r_list : List TimsFrame) (frame : TimsFrame) =>
          r_list ++ [classifyAndInject b intensity_max sample_fraction num_frames frame]) := by
      funext r_list frame
      unfold classifyAndInject
      cases pyDict b.frames_to_window_groups frame.frame_id <;> rfl
    rw [hbody, foldl_append_singleton]
    rfl
  · intro f wg hwg
    unfold classifyAndInject
    rw [hwg]
  · intro f hf
    unfold classifyAndInject
    rw [hf]

/-- Witness for C9 at a concrete fragment frame (id 2, window group 7) and
a concrete precursor frame (id 1). -/
theorem c9_noise_classification_witness :
    add_real_data_noise_to_frames wAcq [wFrame2, wFrame1] 30 (1 / 2) 10 =
      [wFrame2, wFrame1].map (classifyAndInject wAcq 30 (1 / 2) 10) ∧
    classifyAndInject wAcq 30 (1 / 2) 10 wFrame2 =
      wAcq.addFrames wFrame2 (wAcq.sample_fragment_signal 10 7 30 (1 / 2)) ∧
    classifyAndInject wAcq 30 (1 / 2) 10 wFrame1 =
      wAcq.addFrames wFrame1 (wAcq.sample_precursor_signal 10 30 (1 / 2)) :=
  ⟨(c9_noise_classification wAcq [wFrame2, wFrame1] 30 (1 / 2) 10).1,
   (c9_noise_classification wAcq [wFrame2, wFrame1] 30 (1 / 2) 10).2.1 wFrame2 7 rfl,
   (c9_noise_classification wAcq [wFrame2, wFrame1] 30 (1 / 2) 10).2.2 wFrame1 rfl⟩

/-! Association-list lemmas about the metadata store. -/

/-- After a replace-or-add, the table is found under its name. -/
theorem find?_setTableList_self (n : String) (t : TableData)
    (l : List (String × TableData)) :
    (setTableList n t l).find? (fun p => p.fst = n) = some (n, t) := by
  induction l with
  | nil => simp [setTableList, List.find?]
  | cons p l ih =>
    obtain ⟨m, u⟩ := p
    by_cases hm : m = n
    · simp [setTableList, hm, List.find?]
    · simp [setTableList, hm, List.find?, ih]

/-- A replace-or-add leaves the lookup of every other name unchanged. -/
theorem find?_setTableList_ne (n k : String) (t : TableData)
    (l : List (String × TableData)) (hk : k ≠ n) :
    (setTableList n t l).find? (fun p => p.fst = k) = l.find? (fun p => p.fst = k) := by
  induction l with
  | nil => simp [setTableList, List.find?, Ne.symm hk]
  | cons p l ih =>
    obtain ⟨m, u⟩ := p
    by_cases hm : m = n
    · subst hm
      simp [setTableList, List.find?, Ne.symm hk]
    · by_cases hmk : m = k
      · subst hmk
        simp [setTableList, hm, List.find?]
      · simp [setTableList, hm, List.find?, hmk, ih]

/-- Reading back the table just stored. -/
theorem getTable_setTable_self (db : DB) (n : String) (t : TableData) :
    (db.setTable n t).getTable n = some t := by
  unfold DB.setTable DB.getTable
  rw [find?_setTableList_self]
  rfl

/-- Storing a table does not change the others. -/
theorem getTable_setTable_ne (db : DB) (n k : String) (t : TableData) (hk : k ≠ n) :
    (db.setTable n t).getTable k = db.getTable k := by
  unfold DB.setTable DB.getTable
  rw [find?_setTableList_ne n k t db.tables hk]

/-- Re-storing a table with the value already present leaves the store
unchanged. -/
theorem setTable_eq_of_getTable (db : DB) (n : String) (t : TableData)
    (hg : db.getTable n = some t) : db.setTable n t = db := by
  obtain ⟨l⟩ := db
  unfold DB.getTable at hg
  unfold DB.setTable
  congr 1
  induction l with
  | nil => simp [List.find?] at hg
  | cons p l ih =>
    obtain ⟨m, u⟩ := p
    by_cases hm : m = n
    · subst hm
      simp [List.find?] at hg
      simp [setTableList, hg]
    · simp only [List.find?, List.map] at hg
      rw [setTableList, if_neg hm]
      have hg2 : (l.find? fun p => p.fst = n).map Prod.snd = some t := by
        simpa [List.find?, hm] using hg
      rw [ih hg2]

/-! Fold-max lemmas for the `Id` column. -/

/-- The seed is below the fold of `Nat.max`. -/
theorem le_foldl_max (l : List Nat) : ∀ a : Nat, a ≤ l.foldl Nat.max a := by
  induction l with
  | nil => intro a; exact Nat.le_refl a
  | cons b l ih =>
    intro a
    exact le_trans (Nat.le_max_left a b) (ih (Nat.max a b))

/-- Every member is below the fold of `Nat.max`. -/
theorem mem_le_foldl_max (l : List Nat) : ∀ (a x : Nat), x ∈ l → x ≤ l.foldl Nat.max a := by
  induction l with
  | nil => intro a x hx; exact absurd hx (List.not_mem_nil x)
  | cons b l ih =>
    intro a x hx
    rcases List.mem_cons.mp hx with rfl | hx
    · exact le_trans (Nat.le_max_right a x) (le_foldl_max l (Nat.max a x))
    · exact ih (Nat.max a b) x hx

/-- The fold of `Nat.max` is the seed or a member. -/
theorem foldl_max_mem (l : List Nat) : ∀ a : Nat, l.foldl Nat.max a ∈ a :: l := by
  induction l with
  | nil => intro a; simp
  | cons b l ih =>
    intro a
    have h := ih (Nat.max a b)
    rw [List.foldl_cons]
    rcases List.mem_cons.mp h with h1 | h1
    · rcases Nat.le_total a b with hab | hab
      · have h2 : Nat.max a b = b := Nat.max_eq_right hab
        rw [h1, h2]
        exact List.mem_cons.mpr (Or.inr (List.mem_cons_self b l))
      · have h2 : Nat.max a b = a := Nat.max_eq_left hab
        rw [h1, h2]
        exact List.mem_cons_self a (b :: l)
    · exact List.mem_cons.mpr (Or.inr (List.mem_cons.mpr (Or.inr h1)))

/-- Characterisation of a successful finalize: the accumulated rows are
non-empty, and the result replaces only the `Frames` and `Segments`
tables. -/
theorem write_frame_meta_data_spec (h : HelperHandle) (s s1 : WriterState)
    (hfin : write_frame_meta_data h s = some s1) :
    s.frame_meta_data ≠ [] ∧
    s1 = { s with
      db := (s.db.setTable "Frames" (.frames s.frame_meta_data)).setTable "Segments"
        (.segments (segWithLast h.segments (framesIdMax s.frame_meta_data))) } := by
  unfold write_frame_meta_data at hfin
  split at hfin
  · exact absurd hfin (by simp)
  · next hne =>
    refine ⟨?_, (Option.some_inj.mp hfin).symm⟩
    intro hnil
    exact hne (by rw [hnil]; rfl)

/-! Claim C4 (corrected): finalize does not make the session terminal. -/

/-- Lemma: `write_frame` never reads the metadata store: changing only the `db`
component changes only the `db` component of the outcome. -/
theorem write_frame_db_change (h : HelperHandle) (s : WriterState) (d : DB)
    (f : TimsFrame) (m : Int) :
    write_frame h { s with db := d } f m =
      match write_frame h s f m with
      | .ok t => .ok { t with db := d }
      | .error t => .error { t with db := d } := by
  obtain ⟨pos, bin, meta, db0⟩ := s
  simp only [write_frame]
  cases hb : build_frame_meta_row h f m pos false
  · rfl
  · cases hc : h.compress f
    · rfl
    · rfl

/-- Counterexample to C4 as stated: after a successful write and a
successful finalize, a further `write_frame` on the same session is
accepted (it returns normally and appends a second metadata row), not
rejected. -/
theorem c4_counterexample :
    isOkExc (write_frame wHandle (initWriter wHandle 64) wFrame1 8) = true ∧
    (write_frame_meta_data wHandle afterFirstWrite).isSome = true ∧
    isOkExc (write_frame wHandle afterFinalize wFrame2 8) = true ∧
    (exceptState (write_frame wHandle afterFinalize wFrame2 8)).frame_meta_data.map (·.Id) =
      [1, 2] := by
  refine ⟨?_, ?_, ?_, ?_⟩ <;> decide

/-- Claim C4 (amended): `write_frame_meta_data` leaves the writer in a
non-terminal state — a `write_frame` that succeeds before finalize still
succeeds after it with the same appended row and bytes; only the metadata
store component differs.  The code enforces no rejection of writes after
finalize. -/
theorem c4_writes_accepted_after_finalize (h : HelperHandle) (s s1 s2 : WriterState)
    (f : TimsFrame) (m : Int)
    (hfin : write_frame_meta_data h s = some s1)
    (hw : write_frame h s f m = .ok s2) :
    write_frame h s1 f m = .ok { s2 with db := s1.db } := by
  obtain ⟨hne, hs1⟩ := write_frame_meta_data_spec h s s1 hfin
  subst hs1
  rw [write_frame_db_change, hw]

/-- Witness for the amended C4 at the concrete one-frame session. -/
theorem c4_writes_accepted_after_finalize_witness :
    write_frame wHandle afterFinalize wFrame2 8 =
      .ok { exceptState (write_frame wHandle afterFirstWrite wFrame2 8) with
            db := afterFinalize.db } :=
  c4_writes_accepted_after_finalize wHandle afterFirstWrite afterFinalize
    (exceptState (write_frame wHandle afterFirstWrite wFrame2 8)) wFrame2 8
    (by rfl) (by rfl)

/-! Claim C5. -/

/-- Claim C5: after a successful finalize, the stored single-row `Segments`
table carries `LastFrame = framesIdMax`, which is the maximum `Id` over
the accumulated frame rows (it bounds every row's `Id` and is attained by
one of them). -/
theorem c5_segments_lastframe_max (h : HelperHandle) (s s1 : WriterState)
    (hfin : write_frame_meta_data h s = some s1) :
    s1.db.getTable "Segments" =
      some (.segments (segWithLast h.segments (framesIdMax s.frame_meta_data))) ∧
    (∀ r ∈ s.frame_meta_data, r.Id ≤ framesIdMax s.frame_meta_data) ∧
    (∃ r ∈ s.frame_meta_data, r.Id = framesIdMax s.frame_meta_data) := by
  obtain ⟨hne, hs1⟩ := write_frame_meta_data_spec h s s1 hfin
  refine ⟨?_, ?_, ?_⟩
  · rw [hs1]
    exact getTable_setTable_self _ _ _
  · intro r hr
    exact mem_le_foldl_max _ 0 r.Id (List.mem_map_of_mem _ hr)
  · rcases List.mem_cons.mp (foldl_max_mem (s.frame_meta_data.map (·.Id)) 0) with h0 | hmem
    · obtain ⟨r, rest, hrr⟩ : ∃ r rest, s.frame_meta_data = r :: rest := by
        cases hm : s.frame_meta_data with
        | nil => exact absurd hm hne
        | cons a lrest => exact ⟨a, lrest, rfl⟩
      have hrmem : r ∈ s.frame_meta_data := by
        rw [hrr]; exact List.mem_cons_self r rest
      have h1 : r.Id ≤ framesIdMax s.frame_meta_data :=
        mem_le_foldl_max _ 0 r.Id (List.mem_map_of_mem _ hrmem)
      have h2 : framesIdMax s.frame_meta_data = 0 := h0
      exact ⟨r, hrmem, by omega⟩
    · rcases List.mem_map.mp hmem with ⟨r, hr, hid⟩
      exact ⟨r, hr, hid⟩

/-- Witness for C5 at the concrete one-frame session. -/
theorem c5_segments_lastframe_max_witness :
    (afterFinalize.db.getTable "Segments" =
      some (.segments
        (segWithLast wHandle.segments (framesIdMax afterFirstWrite.frame_meta_data)))) ∧
    (∀ r ∈ afterFirstWrite.frame_meta_data,
      r.Id ≤ framesIdMax afterFirstWrite.frame_meta_data) ∧
    (∃ r ∈ afterFirstWrite.frame_meta_data,
      r.Id = framesIdMax afterFirstWrite.frame_meta_data) :=
  c5_segments_lastframe_max wHandle afterFirstWrite afterFinalize (by rfl)

/-! Claim C10. -/

/-- Claim C10: calling the finalize step twice with no intervening writes
is idempotent — the second call recomputes the same `Frames` and
`Segments` tables from the unchanged accumulated rows and replaces them
with identical contents, leaving the writer (and its metadata store) in
exactly the state after the first call. -/
theorem c10_finalize_idempotent (h : HelperHandle) (s s1 : WriterState)
    (hfin : write_frame_meta_data h s = some s1) :
    write_frame_meta_data h s1 = some s1 := by
  obtain ⟨hne, hs1⟩ := write_frame_meta_data_spec h s s1 hfin
  subst hs1
  have hne2 : ¬(s.frame_meta_data.isEmpty = true) := by
    cases hm : s.frame_meta_data with
    | nil => exact absurd hm hne
    | cons a l => simp
  have hgF : (((s.db.setTable "Frames" (.frames s.frame_meta_data)).setTable "Segments"
        (.segments (segWithLast h.segments (framesIdMax s.frame_meta_data)))).setTable
        "Frames" (.frames s.frame_meta_data)) =
      (s.db.setTable "Frames" (.frames s.frame_meta_data)).setTable "Segments"
        (.segments (segWithLast h.segments (framesIdMax s.frame_meta_data))) := by
    apply setTable_eq_of_getTable
    rw [getTable_setTable_ne _ _ _ _ (by decide)]
    exact getTable_setTable_self _ _ _
  unfold write_frame_meta_data
  rw [if_neg hne2]
  simp only [Option.some.injEq, WriterState.mk.injEq, true_and]
  rw [hgF]
  exact setTable_eq_of_getTable _ _ _ (getTable_setTable_self _ _ _)

/-- Witness for C10 at the concrete one-frame session. -/
theorem c10_finalize_idempotent_witness :
    write_frame_meta_data wHandle afterFinalize = some afterFinalize :=
  c10_finalize_idempotent wHandle afterFirstWrite afterFinalize (by rfl)

/-! Claim C1. -/

/-- When every zipped payload is the single-frame compression of its frame,
the `write_frames` loop behaves exactly like iterated `write_frame`. -/
theorem write_frames_loop_eq_iter (h : HelperHandle) (m : Int)
    (frames : List TimsFrame) (datas : List (List Nat))
    (hfd : List.Forall₂ (fun f d => h.compress f = some d) frames datas) :
    ∀ s : WriterState,
      write_frames_loop h m s (frames.zip datas) = writeFramesIter h m s frames := by
  induction hfd with
  | nil => intro s; rfl
  | @cons f d fs ds hf _ ih =>
    intro s
    obtain ⟨pos, bin, meta, db0⟩ := s
    show write_frames_loop h m _ ((f, d) :: fs.zip ds) = _
    unfold write_frames_loop writeFramesIter write_frame
    cases hb : build_frame_meta_row h f m pos false
    · rfl
    · rw [hf]
      exact ih _

/-- Claim C1: writing a sequence of frames through one `write_frames` call
produces exactly the same final writer state (binary file contents,
cursor, accumulated metadata rows, store) as writing them one at a time
via `write_frame`, provided the batched compressor returns, per frame,
the same bytes as single-frame compression. -/
theorem c1_write_frames_eq_iterated_write_frame (h : HelperHandle) (s : WriterState)
    (frames : List TimsFrame) (scan_mode : Int) (datas : List (List Nat))
    (hbatch : h.compress_frames frames = some datas)
    (hsingle : List.Forall₂ (fun f d => h.compress f = some d) frames datas) :
    write_frames h s frames scan_mode = writeFramesIter h scan_mode s frames := by
  unfold write_frames
  rw [hbatch]
  exact write_frames_loop_eq_iter h scan_mode frames datas hsingle s

/-- Witness for C1: a concrete two-frame batch against the handle whose
batched compressor is frame-wise single compression. -/
theorem c1_write_frames_eq_iterated_write_frame_witness :
    write_frames wHandle (initWriter wHandle 64) [wFrame1, wFrame2] 8 =
      writeFramesIter wHandle 8 (initWriter wHandle 64) [wFrame1, wFrame2] :=
  c1_write_frames_eq_iterated_write_frame wHandle (initWriter wHandle 64)
    [wFrame1, wFrame2] 8 [[9], [9, 9]] rfl
    (List.Forall₂.cons rfl (List.Forall₂.cons rfl List.Forall₂.nil))

/-! Claim C2. -/

/-- Prefix-sum offsets decompose over list concatenation. -/
theorem timsIds_append (xs ys : List Nat) : ∀ o : Nat,
    timsIds o (xs ++ ys) = timsIds o xs ++ timsIds (o + xs.sum) ys := by
  induction xs with
  | nil => intro o; simp [timsIds]
  | cons a xs ih => intro o; simp [timsIds, ih (o + a), Nat.add_assoc]

/-- Every prefix-sum offset is at least the starting offset. -/
theorem timsIds_mem_le (ls : List Nat) : ∀ o x : Nat, x ∈ timsIds o ls → o ≤ x := by
  induction ls with
  | nil => intro o x hx; simp [timsIds] at hx
  | cons l ls ih =>
    intro o x hx
    rcases List.mem_cons.mp hx with rfl | hx
    · exact Nat.le_refl x
    · exact le_trans (Nat.le_add_right o l) (ih (o + l) x hx)

/-- With all payloads non-empty, the prefix-sum offsets strictly increase. -/
theorem timsIds_pairwise (ls : List Nat) (hpos : ∀ l ∈ ls, 0 < l) :
    ∀ o : Nat, (timsIds o ls).Pairwise (· < ·) := by
  induction ls with
  | nil => intro o; simp [timsIds]
  | cons l ls ih =>
    intro o
    refine List.Pairwise.cons ?_ (ih (fun x hx => hpos x (List.mem_cons.mpr (Or.inr hx))) (o + l))
    intro y hy
    have h1 : o + l ≤ y := timsIds_mem_le ls (o + l) y hy
    have h2 : 0 < l := hpos l (List.mem_cons_self l ls)
    omega

/-- Effect of a successful `write_frames` zip loop: payloads are appended
in order, the cursor tracks the file length, the store is untouched, and
the new metadata rows record the prefix-sum offsets. -/
theorem write_frames_loop_ok_spec (h : HelperHandle) (m : Int) :
    ∀ (pairs : List (TimsFrame × List Nat)) (s s1 : WriterState),
    write_frames_loop h m s pairs = .ok s1 →
    s.position = s.binFile.length →
    s1.position = s1.binFile.length ∧
    s1.db = s.db ∧
    s1.binFile = s.binFile ++ (pairs.map Prod.snd).flatten ∧
    ∃ rows, s1.frame_meta_data = s.frame_meta_data ++ rows ∧
      rows.map (·.TimsId) = timsIds s.binFile.length (pairs.map fun p => p.snd.length) := by
  intro pairs
  induction pairs with
  | nil =>
    intro s s1 hrun hpos
    have hs : s = s1 := by simpa [write_frames_loop] using hrun
    subst hs
    exact ⟨hpos, rfl, by simp, [], by simp, rfl⟩
  | cons p pairs ih =>
    intro s s1 hrun hpos
    obtain ⟨f, d⟩ := p
    unfold write_frames_loop at hrun
    cases hb : build_frame_meta_row h f m s.position false <;> rw [hb] at hrun
    · simp at hrun
    · next row =>
      obtain ⟨h1, h2, h3, rows, h4, h5⟩ := ih _ s1 hrun (by simp)
      refine ⟨h1, h2, ?_, row :: rows, ?_, ?_⟩
      · rw [h3]
        simp
      · rw [h4]
        simp
      · have hrow : row.TimsId = s.position := build_frame_meta_row_timsId h f m _ _ row hb
        simp only [List.map_cons, h5, timsIds, List.map]
        rw [hrow, hpos]
        simp [timsIds]

/-- Effect of a successful sequence of writer calls: all payloads are
appended in input order after the initial contents, the store is
untouched, and the accumulated rows record the prefix-sum offsets. -/
theorem runWrites_ok_spec (h : HelperHandle) (m : Int) :
    ∀ (ops : List WriteOp) (s s1 : WriterState) (pss : List (List (List Nat))),
    runWrites h m s ops = .ok s1 →
    opsPayloads h ops = some pss →
    s.position = s.binFile.length →
    s1.position = s1.binFile.length ∧
    s1.db = s.db ∧
    s1.binFile = s.binFile ++ pss.flatten.flatten ∧
    ∃ rows, s1.frame_meta_data = s.frame_meta_data ++ rows ∧
      rows.map (·.TimsId) = timsIds s.binFile.length (pss.flatten.map List.length) := by
  intro ops
  induction ops with
  | nil =>
    intro s s1 pss hrun hpay hpos
    have hs : s = s1 := by simpa [runWrites] using hrun
    have hp : pss = [] := by
      have := hpay
      unfold opsPayloads at this
      exact (Option.some_inj.mp this).symm
    subst hs
    subst hp
    exact ⟨hpos, rfl, by simp, [], by simp, by simp [timsIds]⟩
  | cons op ops ih =>
    intro s s1 pss hrun hpay hpos
    cases op with
    | single f =>
      unfold opsPayloads at hpay
      cases hc : h.compress f <;> rw [opPayloads] at hpay <;> rw [hc] at hpay
      · simp at hpay
      · next d =>
        cases hpp : opsPayloads h ops <;> rw [hpp] at hpay
        · simp at hpay
        · next pss2 =>
          simp only [Option.map_some', Option.some_inj] at hpay
          unfold runWrites at hrun
          cases hw : write_frame h s f m <;> rw [hw] at hrun
          · simp at hrun
          · next s2 =>
            unfold write_frame at hw
            cases hb : build_frame_meta_row h f m s.position false <;> rw [hb] at hw
            · simp at hw
            · next row =>
              rw [hc] at hw
              simp only [Except.ok.injEq] at hw
              obtain ⟨h1, h2, h3, rows, h4, h5⟩ := ih s2 s1 pss2 hrun hpp (by rw [← hw])
              subst hpay
              refine ⟨h1, by rw [h2, ← hw], ?_, row :: rows, ?_, ?_⟩
              · rw [h3, ← hw]
                simp
              · rw [h4, ← hw]
                simp
              · have hrow : row.TimsId = s.position :=
                  build_frame_meta_row_timsId h f m _ _ row hb

                have hlen : s2.binFile.length = s.binFile.length + d.length := by
                  rw [← hw]
                  simp
                simp only [List.map_cons, h5, hlen, List.flatten, List.map]
                rw [hrow, hpos]
                simp [timsIds, List.singleton_append]
    | batch fs =>
      unfold opsPayloads at hpay
      cases hcf : h.compress_frames fs <;> rw [opPayloads] at hpay <;> rw [hcf] at hpay
      · simp at hpay
      · next ds =>
        cases hpp : opsPayloads h ops <;> rw [hpp] at hpay
        · simp at hpay
        · next pss2 =>
          simp only [Option.map_some', Option.some_inj] at hpay
          unfold runWrites at hrun
          cases hw : write_frames h s fs m <;> rw [hw] at hrun
          · simp at hrun
          · next s2 =>
            unfold write_frames at hw
            rw [hcf] at hw
            obtain ⟨l1, l2, l3, lrows, l4, l5⟩ :=
              write_frames_loop_ok_spec h m (fs.zip ds) s s2 hw hpos
            obtain ⟨h1, h2, h3, rows2, h4, h5⟩ := ih s2 s1 pss2 hrun hpp l1
            subst hpay
            have hjoin : ((fs.zip ds).map Prod.snd).flatten.length =
                (((fs.zip ds).map Prod.snd).map List.length).sum := by
              simp
            refine ⟨h1, by rw [h2, l2], ?_, lrows ++ rows2, ?_, ?_⟩
            · rw [h3, l3]
              simp [List.append_assoc]
            · rw [h4, l4]
              simp [List.append_assoc]
            · have hmm : (fs.zip ds).map (fun p => p.snd.length) =
                  ((fs.zip ds).map Prod.snd).map List.length := by
                rw [List.map_map]
                rfl
              have hlen2 : s2.binFile.length =
                  s.binFile.length + (((fs.zip ds).map Prod.snd).map List.length).sum := by
                rw [l3, List.length_append, hjoin]
              have hsplit : ((((fs.zip ds).map Prod.snd) :: pss2).flatten.map List.length) =
                  ((fs.zip ds).map Prod.snd).map List.length ++ pss2.flatten.map List.length := by
                simp
              rw [List.map_append, l5, h5, hmm, hlen2, hsplit, timsIds_append]

/-- Claim C2: over any successful sequence of single-frame and batched
writes into a fresh session, the accumulated rows' `TimsId`s are exactly
the byte lengths of `analysis.tdf_bin` immediately before each payload
append (prefix sums of the payload lengths starting at `offset_bytes`),
the first row's `TimsId` is `offset_bytes`, and — whenever every
compressed payload is non-empty, as with the real compressor — the
`TimsId`s strictly increase in write order. -/
theorem c2_timsid_offset_invariant (h : HelperHandle) (m : Int) (offset_bytes : Nat)
    (ops : List WriteOp) (s1 : WriterState) (pss : List (List (List Nat)))
    (hrun : runWrites h m (initWriter h offset_bytes) ops = .ok s1)
    (hpay : opsPayloads h ops = some pss) :
    s1.binFile = List.replicate offset_bytes 0 ++ pss.flatten.flatten ∧
    s1.frame_meta_data.map (·.TimsId) = timsIds offset_bytes (pss.flatten.map List.length) ∧
    (∀ r0, s1.frame_meta_data.head? = some r0 → r0.TimsId = offset_bytes) ∧
    ((∀ d ∈ pss.flatten, d ≠ []) →
      (s1.frame_meta_data.map (·.TimsId)).Pairwise (· < ·)) := by
  obtain ⟨h1, h2, h3, rows, h4, h5⟩ :=
    runWrites_ok_spec h m ops (initWriter h offset_bytes) s1 pss hrun hpay (by simp [initWriter])
  have hinit : (initWriter h offset_bytes).binFile = List.replicate offset_bytes 0 := rfl
  have hinitlen : (initWriter h offset_bytes).binFile.length = offset_bytes := by
    rw [hinit]
    exact List.length_replicate _ _
  have hmeta : s1.frame_meta_data = rows := by
    rw [h4]
    rfl
  have hids : s1.frame_meta_data.map (·.TimsId) =
      timsIds offset_bytes (pss.flatten.map List.length) := by
    rw [hmeta, h5, hinitlen]
  refine ⟨by rw [h3, hinit], hids, ?_, ?_⟩
  · intro r0 hr0
    have := congrArg List.head? hids
    rw [List.head?_map, hr0] at this
    cases hjl : pss.flatten.map List.length with
    | nil => rw [hjl] at this; simp [timsIds] at this
    | cons a l =>
      rw [hjl] at this
      simp only [timsIds, List.head?, Option.map_some'] at this
      exact Option.some_inj.mp this
  · intro hne
    rw [hids]
    refine timsIds_pairwise _ ?_ offset_bytes
    intro l hl
    rcases List.mem_map.mp hl with ⟨d, hd, hdl⟩
    have : d ≠ [] := hne d hd
    rw [← hdl]
    exact List.length_pos.mpr this

/-- Witness for C2: the concrete two-call session (one single write, one
batched write) over a 2-byte header. -/
theorem c2_timsid_offset_invariant_witness :
    (c2FinalState.binFile = List.replicate 2 0 ++ ([[[9]], [[9, 9]]] : List (List (List Nat))).flatten.flatten) ∧
    (c2FinalState.frame_meta_data.map (·.TimsId) =
      timsIds 2 (([[[9]], [[9, 9]]] : List (List (List Nat))).flatten.map List.length)) ∧
    (∀ r0, c2FinalState.frame_meta_data.head? = some r0 → r0.TimsId = 2) ∧
    ((c2FinalState.frame_meta_data.map (·.TimsId)).Pairwise (· < ·)) :=
  have H := c2_timsid_offset_invariant wHandle 8 2 c2ops c2FinalState
    [[[9]], [[9, 9]]] rfl rfl
  ⟨H.1, H.2.1, H.2.2.1, H.2.2.2 (by decide)⟩

/-! Claim C8. -/

/-- Running the iterator from cursor `c` through the rest of the frame
range fetches indices `c, c+1, ..., n` in ascending order and leaves the
cursor at `n + 1`, provided the native `get_frame` returns the frame with
the requested id on every valid index. -/
theorem dsRun_spec (n : Nat) (g : Nat → Option TimsFrame)
    (hg : ∀ i, 1 ≤ i → i ≤ n → ∃ f, g i = some f ∧ f.frame_id = i) :
    ∀ k c : Nat, 1 ≤ c → c + k = n + 1 →
    (dsRun ⟨n, g, c⟩ k).fst.map IterResult.frameId = (List.range' c k).map some ∧
    (dsRun ⟨n, g, c⟩ k).snd = ⟨n, g, n + 1⟩ := by
  intro k
  induction k with
  | zero =>
    intro c _ h2
    have hc : c = n + 1 := by omega
    subst hc
    exact ⟨rfl, rfl⟩
  | succ k ih =>
    intro c h1 h2
    have hcn : c ≤ n := by omega
    obtain ⟨f, hf, hid⟩ := hg c h1 hcn
    have hnext : dsNext ⟨n, g, c⟩ = (.frame f, ⟨n, g, c + 1⟩) := by
      simp [dsNext, hcn, hf]
    obtain ⟨ha, hb⟩ := ih (c + 1) (by omega) (by omega)
    constructor
    · show ((dsNext ⟨n, g, c⟩).fst :: (dsRun (dsNext ⟨n, g, c⟩).snd k).fst).map
        IterResult.frameId = _
      rw [hnext]
      simp only [List.map_cons, ha, List.range'_succ, List.map]
      rw [IterResult.frameId, hid]
    · show (dsRun (dsNext ⟨n, g, c⟩).snd k).snd = _
      rw [hnext]
      exact hb

/-- Claim C8: iterating a dataset handle whose cursor starts at 1 yields
the frames with ids `1 .. frame_count` in ascending order (when the native
`get_frame` returns the frame with the requested id); the following
`next()` raises `StopIteration` and resets the cursor to 1, leaving the
handle in exactly its fresh state — the iterator is restartable, not
single-use. -/
theorem c8_iteration_contract (n : Nat) (g : Nat → Option TimsFrame)
    (hg : ∀ i, 1 ≤ i → i ≤ n → ∃ f, g i = some f ∧ f.frame_id = i) :
    (dsRun ⟨n, g, 1⟩ n).fst.map IterResult.frameId = (List.range' 1 n).map some ∧
    (dsRun ⟨n, g, 1⟩ n).snd = ⟨n, g, n + 1⟩ ∧
    dsNext ⟨n, g, n + 1⟩ = (.stopIteration, ⟨n, g, 1⟩) := by
  obtain ⟨ha, hb⟩ := dsRun_spec n g hg n 1 (Nat.le_refl 1) (by omega)
  refine ⟨ha, hb, ?_⟩
  unfold dsNext
  rw [if_neg (show ¬((⟨n, g, n + 1⟩ : DatasetIter).current_index ≤
    (⟨n, g, n + 1⟩ : DatasetIter).frame_count) by simp)]

/-- Witness for C8 over a concrete two-frame dataset. -/
theorem c8_iteration_contract_witness :
    (dsRun ⟨2, wGetFrame, 1⟩ 2).fst.map IterResult.frameId = (List.range' 1 2).map some ∧
    (dsRun ⟨2, wGetFrame, 1⟩ 2).snd = ⟨2, wGetFrame, 3⟩ ∧
    dsNext ⟨2, wGetFrame, 3⟩ = (.stopIteration, ⟨2, wGetFrame, 1⟩) :=
  c8_iteration_contract 2 wGetFrame (fun i _ _ =>
    ⟨{ frame_id := i, ms_type := 0, retention_time := 0, scan := [], mobility := [],
       tof := [], mz := [], intensity := [] }, rfl, rfl⟩)

end RustIms
